import Mathlib

/-!
# Verification of `ember-task-scheduler` (addon/services/scheduler.js)

A shallow embedding of the frame-budgeted cooperative task scheduler in
`src/addon/services/scheduler.js`, together with theorems settling the
spec claims about it.

Modelling conventions:
* JavaScript reference identity (`===`) on targets and callables is modelled
  by tagging objects and functions with `Nat` identifiers.
* The host frame-callback primitive (`requestAnimationFrame` /
  `cancelAnimationFrame`) is modelled as a list of outstanding request
  handles plus a fresh-handle counter in the `World` state.
* `Ember.assert` throws an `Error` in development builds (the builds the
  repository's own test-suite runs); we model it as a raised `SchedErr`.
* Wall time (`performance.now()`) is a rational clock in the `World`; each
  executed callable advances it by the duration its modelled behaviour
  declares.
* Task callables are modelled by a `Behavior` per function identifier: a
  list of re-entrant scheduler calls the callable performs, an optional
  raised error, and a duration.  Invocations and error-hook calls are
  recorded in observation logs (`execLog`, `errLog`).
-/

namespace TaskScheduler

/-- JavaScript values relevant to the scheduler's argument parsing:
`null`, `undefined`, function references (by identity), object references
(by identity), strings and numbers. -/
inductive JSVal where
  | vnull
  | vundefined
  | vfun (id : Nat)
  | vobj (id : Nat)
  | vstr (s : String)
  | vnum (n : Int)
deriving DecidableEq, Repr

/-- A queued task entry: the 4-tuple `[target, method, args, stack]` built by
`_sliceArguments`.  `method` is the *resolved* function (its identity), as the
source stores the resolved function value, and `stack` is the diagnostic
`new Error()` captured in development mode (modelled as a token). -/
structure Task where
  target : JSVal
  method : Nat
  args : List JSVal
  stack : Option Nat
deriving DecidableEq, Repr

/-- Synchronous JavaScript exceptions the scheduler code can raise:
a `TypeError` from reading a property of `null`/`undefined`, a failed
`Ember.assert` (which throws in development builds), and a marker for
model-fuel exhaustion of the drain loop (never hit on the traces and
hypotheses used below). -/
inductive SchedErr where
  | typeError
  | assertFail (msg : String)
  | fuelOut
deriving DecidableEq, Repr

/-- Errors observed by the `onError` hook: an error thrown by a user task
body, or a scheduler exception propagating out of a re-entrant call made
inside a task body. -/
inductive ErrV where
  | user (id : Nat)
  | js (e : SchedErr)
deriving DecidableEq, Repr

/-- A re-entrant scheduler call a task body may perform while executing. -/
inductive SchedCall where
  | callSchedule (argv : List JSVal)
  | callScheduleOnce (argv : List JSVal)
  | callCancel (argv : List JSVal)
  | destroy
deriving Repr

/-- JavaScript numbers (timestamps, durations, frame rates), modelled as
exact fractions `num / den` WITHOUT normalisation, so that every arithmetic
operation reduces inside the Lean kernel (the built-in `Rat` operations are
sealed).  Every number the model constructs from integer literals has a
positive denominator.  `JSNum.toRat` interprets a value as a Lean rational;
the lemmas below prove each operation agrees with rational arithmetic. -/
structure JSNum where
  num : Int
  den : Int
deriving DecidableEq, Repr

instance (n : Nat) : OfNat JSNum n := ⟨⟨n, 1⟩⟩

/-- Fraction addition without normalisation. -/
def JSNum.add (a b : JSNum) : JSNum :=
  ⟨a.num * b.den + b.num * a.den, a.den * b.den⟩

/-- Fraction subtraction without normalisation. -/
def JSNum.sub (a b : JSNum) : JSNum :=
  ⟨a.num * b.den - b.num * a.den, a.den * b.den⟩

/-- Fraction multiplication without normalisation. -/
def JSNum.mul (a b : JSNum) : JSNum := ⟨a.num * b.num, a.den * b.den⟩

/-- Fraction division without normalisation. -/
def JSNum.div (a b : JSNum) : JSNum := ⟨a.num * b.den, a.den * b.num⟩

instance : Add JSNum := ⟨JSNum.add⟩

instance : Sub JSNum := ⟨JSNum.sub⟩

instance : Mul JSNum := ⟨JSNum.mul⟩

instance : Div JSNum := ⟨JSNum.div⟩

/-- Fraction comparison by cross-multiplication (correct when both
denominators are positive, which holds for every number the model builds). -/
def JSNum.blt (a b : JSNum) : Bool := a.num * b.den < b.num * a.den

instance : LT JSNum := ⟨fun a b => JSNum.blt a b = true⟩

instance (a b : JSNum) : Decidable (a < b) :=
  inferInstanceAs (Decidable (JSNum.blt a b = true))

/-- Interpretation of a model number as a Lean rational. -/
def JSNum.toRat (a : JSNum) : Rat := (a.num : Rat) / (a.den : Rat)

/-- The modelled behaviour of one callable (keyed by function identity):
the re-entrant calls it performs, the error it throws after those calls
(if any), and the wall-clock duration of its body. -/
structure Behavior where
  calls : List SchedCall
  throws : Option Nat
  duration : JSNum

/-- The configured `config.taskScheduler.FPS` value: absent (`undefined`),
`null`, or a number. -/
inductive FPSConfig where
  | absent
  | nullv
  | num (q : JSNum)
deriving DecidableEq, Repr

/-- The ambient environment of a scheduler instance: property lookup on
objects and on function objects (for method-name resolution), the
`config.environment` string, the configured FPS, and the behaviour of each
callable. -/
structure Env where
  props : Nat → String → JSVal
  fprops : Nat → String → JSVal
  environment : String
  fps : FPSConfig
  behaviors : Nat → Behavior

/-- The scheduler service's own state: `_tasks`, `_currentInstance`,
Ember's `isDestroyed` flag, and whether an `onError` hook is configured. -/
structure Scheduler where
  tasks : List Task
  currentInstance : Option Nat
  isDestroyed : Bool
  onErrorSet : Bool
deriving DecidableEq, Repr

/-- The scheduler together with its host: outstanding frame-request handles
(in request order), the fresh-handle counter (handles start at 1 — real
`requestAnimationFrame` handles are nonzero, hence truthy), the monotonic
clock, the development-stack freshness counter, and the observation logs of
error-hook invocations and task executions. -/
structure World where
  sched : Scheduler
  outstanding : List Nat
  nextHandle : Nat
  now : JSNum
  stackCtr : Nat
  errLog : List (ErrV × Option Nat)
  execLog : List (JSVal × Nat × List JSVal)
deriving DecidableEq, Repr

/-- JavaScript property read `v[s]`: throws `TypeError` on `null`/`undefined`,
looks up the environment's property tables on objects and functions, and
yields `undefined` on primitives. -/
def lookupProp (env : Env) (v : JSVal) (s : String) : Except SchedErr JSVal :=
  match v with
  | .vnull => .error .typeError
  | .vundefined => .error .typeError
  | .vobj id => .ok (env.props id s)
  | .vfun id => .ok (env.fprops id s)
  | .vstr _ => .ok .vundefined
  | .vnum _ => .ok .vundefined

/-- Model of `_sliceArguments(target, method, ...args)`: when called with exactly one
argument, that argument becomes the method and the target becomes `null`;
a string method is resolved by property lookup on the target; in development
mode a diagnostic stack (`new Error()`) is captured (modelled by stamping the
freshness counter); finally `assert(..., method && typeof method === 'function')`
throws unless the resolved method is a function.  Returns the built task and
the updated stack counter (the counter advances exactly when an `Error` was
allocated, i.e. also when the final assert then throws). -/
def sliceArguments (env : Env) (argv : List JSVal) (ctr : Nat) :
    Except SchedErr Task × Nat :=
  let length := argv.length
  let target0 := argv.getD 0 .vundefined
  let method0 := argv.getD 1 .vundefined
  let args := argv.drop 2
  let tm := if length == 1 then (JSVal.vnull, target0) else (target0, method0)
  let resolved := match tm.2 with
    | .vstr s => lookupProp env tm.1 s
    | m => .ok m
  match resolved with
  | .error e => (.error e, ctr)
  | .ok m =>
    let st := if env.environment == "development"
      then (some ctr, ctr + 1) else (none, ctr)
    match m with
    | .vfun id =>
      (.ok { target := tm.1, method := id, args := args, stack := st.1 }, st.2)
    | _ => (.error (.assertFail "Could not find a valid method to call"), st.2)

/-- Model of `millisecondsPerFrame`: `const fps = this.get('FPS') || FPS;
return 1 / fps * MILLISECONDS;` with `FPS = 60`, `MILLISECONDS = 1000`.
JavaScript `||` falls back to 60 on any falsy configured value
(`undefined`, `null`, `0`). -/
def millisecondsPerFrame (cfg : FPSConfig) : JSNum :=
  let fps : JSNum := match cfg with
    | .num q => if q.num == 0 then 60 else q
    | _ => 60
  1 / fps * 1000

/-- Model of `hasPendingTasks()`: `this.get('_tasks.length') !== 0`. -/
def hasPendingTasks (s : Scheduler) : Bool :=
  s.tasks.length != 0

/-- Host `requestAnimationFrame`: hands out a fresh handle and records the
request as outstanding. -/
def requestAnimationFrame (w : World) : Nat × World :=
  (w.nextHandle,
   { w with outstanding := w.outstanding ++ [w.nextHandle],
            nextHandle := w.nextHandle + 1 })

/-- Host `cancelAnimationFrame(h)`: drops the request `h` if it is still
outstanding; a no-op on a handle whose callback already fired. -/
def cancelAnimationFrame (h : Nat) (w : World) : World :=
  { w with outstanding := w.outstanding.filter (fun x => x != h) }

/-- Model of `_begin()`: asserts no frame is already scheduled, then
`this.set('_currentInstance', scheduleFrame(this, '_loop'))`. -/
def _begin (w : World) : World × Option SchedErr :=
  if w.sched.currentInstance.isSome then
    (w, some (.assertFail
      "Could not schedule a new frame. Scheduler instance is already started"))
  else
    let hw := requestAnimationFrame w
    ({ hw.2 with sched := { hw.2.sched with currentInstance := some hw.1 } },
     none)

/-- Model of `_next()`: asserts the instance is running and has tasks, then
`this.set('_currentInstance', scheduleFrame(this, '_loop'))`. -/
def _next (w : World) : World × Option SchedErr :=
  if w.sched.currentInstance.isNone then
    (w, some (.assertFail
      "Could not schedule next frame. Scheduler instance is not running"))
  else if !hasPendingTasks w.sched then
    (w, some (.assertFail "Could not schedule next frame. Scheduler has no tasks"))
  else
    let hw := requestAnimationFrame w
    ({ hw.2 with sched := { hw.2.sched with currentInstance := some hw.1 } },
     none)

/-- Model of `_end()`: asserts the instance is running, cancels the outstanding
frame request and clears `_currentInstance`. -/
def _end (w : World) : World × Option SchedErr :=
  match w.sched.currentInstance with
  | none =>
    (w, some (.assertFail "Could not stop scheduler. Service instance is not running"))
  | some h =>
    let w := cancelAnimationFrame h w
    ({ w with sched := { w.sched with currentInstance := none } }, none)

/-- Model of `schedule()`: parse the arguments, push the built entry at the queue
tail, then `if (!currentInstance) this._begin();` (the snapshot of
`_currentInstance` is read before the push).  A parse failure throws
before the push, leaving the queue and frame-request state untouched. -/
def schedule (env : Env) (argv : List JSVal) (w : World) :
    World × Option SchedErr :=
  let currentInstance := w.sched.currentInstance
  match sliceArguments env argv w.stackCtr with
  | (.error e, ctr) => ({ w with stackCtr := ctr }, some e)
  | (.ok task, ctr) =>
    let w := { w with stackCtr := ctr,
                      sched := { w.sched with tasks := w.sched.tasks ++ [task] } }
    if currentInstance.isNone then _begin w else (w, none)

/-- Model of `_pushUnique(params)`: scan the queue for an entry with the same target
and same resolved method (both compared by `===`); on the first match,
overwrite its `args` and `stack` fields in place (keeping its position) and
stop; otherwise append the new entry at the tail. -/
def _pushUnique (task : Task) : List Task → List Task
  | [] => [task]
  | t :: rest =>
    if t.target == task.target && t.method == task.method then
      { t with args := task.args, stack := task.stack } :: rest
    else
      t :: _pushUnique task rest

/-- Model of `scheduleOnce()`: like `schedule` but inserts via `_pushUnique`. -/
def scheduleOnce (env : Env) (argv : List JSVal) (w : World) :
    World × Option SchedErr :=
  let currentInstance := w.sched.currentInstance
  match sliceArguments env argv w.stackCtr with
  | (.error e, ctr) => ({ w with stackCtr := ctr }, some e)
  | (.ok task, ctr) =>
    let w := { w with stackCtr := ctr,
                      sched := { w.sched with tasks := _pushUnique task w.sched.tasks } }
    if currentInstance.isNone then _begin w else (w, none)

/-- The index-collection pass of `cancel`: `for (let i = 0; i < tasks.length;
i++) if (tasks[i] matches) removedIndexes.push(i);`. -/
def cancelFindIndexes (target : JSVal) (method : Nat) (tasks : List Task) :
    List Nat :=
  (List.range tasks.length).filter (fun i =>
    match tasks.get? i with
    | some t => t.target == target && t.method == method
    | none => false)

/-- JavaScript `tasks.splice(i, 1)`: removes and returns the element at `i`
when `i < tasks.length`, otherwise removes nothing and returns `[]`. -/
def spliceOne (tasks : List Task) (i : Nat) : List Task × List Task :=
  match tasks.get? i with
  | some t => (tasks.take i ++ tasks.drop (i + 1), [t])
  | none => (tasks, [])

/-- The removal pass of `cancel`: for each previously collected index, splice
one element out of the *current* (already mutated) array and push the splice
result onto `removedTasks`.  Note the collected indexes are not adjusted for
the shifting caused by earlier splices. -/
def cancelRemovePass (tasks : List Task) : List Nat → List Task × List (List Task)
  | [] => (tasks, [])
  | i :: rest =>
    let r := spliceOne tasks i
    let rr := cancelRemovePass r.1 rest
    (rr.1, r.2 :: rr.2)

/-- Model of `cancel()`: snapshot `_currentInstance`, parse the arguments (this can
throw, exactly like `schedule`), collect the indexes of matching entries,
splice them out one by one, then
`if (currentInstance && tasks.length === 0) this._end();` and return the
array of splice results. -/
def cancel (env : Env) (argv : List JSVal) (w : World) :
    World × Except SchedErr (List (List Task)) :=
  let currentInstance := w.sched.currentInstance
  match sliceArguments env argv w.stackCtr with
  | (.error e, ctr) => ({ w with stackCtr := ctr }, .error e)
  | (.ok tk, ctr) =>
    let w := { w with stackCtr := ctr }
    let idxs := cancelFindIndexes tk.target tk.method w.sched.tasks
    let tr := cancelRemovePass w.sched.tasks idxs
    let w := { w with sched := { w.sched with tasks := tr.1 } }
    if currentInstance.isSome && tr.1.length == 0 then
      match _end w with
      | (w, some e) => (w, .error e)
      | (w, none) => (w, .ok tr.2)
    else
      (w, .ok tr.2)

/-- Interpret one re-entrant scheduler call performed by a task body.
An exception raised by the call (e.g. an admission error from a nested
`schedule`) propagates out of the task body. -/
def runCall (env : Env) (c : SchedCall) (w : World) : World × Option SchedErr :=
  match c with
  | .callSchedule argv => schedule env argv w
  | .callScheduleOnce argv => scheduleOnce env argv w
  | .callCancel argv =>
    match cancel env argv w with
    | (w, .error e) => (w, some e)
    | (w, .ok _) => (w, none)
  | .destroy =>
    ({ w with sched := { w.sched with isDestroyed := true } }, none)

/-- Run a task body's re-entrant calls in order; the first exception aborts
the rest and propagates. -/
def runCalls (env : Env) : List SchedCall → World → World × Option SchedErr
  | [], w => (w, none)
  | c :: rest, w =>
    match runCall env c w with
    | (w, some e) => (w, some e)
    | (w, none) => runCalls env rest w

/-- Model of `method.apply(target, args)`: record the invocation, advance the clock
by the callable's duration, run its re-entrant calls, and produce the error
it raises (a scheduler exception escaping a re-entrant call, or the
callable's own throw). -/
def invokeMethod (env : Env) (target : JSVal) (method : Nat)
    (args : List JSVal) (w : World) : World × Option ErrV :=
  let b := env.behaviors method
  let w := { w with execLog := w.execLog ++ [(target, method, args)],
                    now := w.now + b.duration }
  match runCalls env b.calls w with
  | (w, some e) => (w, some (.js e))
  | (w, none) =>
    match b.throws with
    | some eid => (w, some (.user eid))
    | none => (w, none)

/-- The module-level `exec(target, method, args, onError, stack)` wrapper:
`try { method.apply(target, args) } catch (e) { if (onError) onError(e, stack) }`.
An `onError` invocation is recorded in `errLog`. -/
def exec (env : Env) (target : JSVal) (method : Nat) (args : List JSVal)
    (onError : Bool) (stack : Option Nat) (w : World) : World :=
  match invokeMethod env target method args w with
  | (w, none) => w
  | (w, some e) =>
    if onError then { w with errLog := w.errLog ++ [(e, stack)] } else w

/-- Model of `_exec(target, method, args, stack)`: wraps `exec` in `run.begin()` /
`run.end()` (no modelled effect) and, in development mode, a purely
observational console warning about overlong callbacks (no modelled
effect); the configured `onError` hook is read from the service. -/
def _exec (env : Env) (target : JSVal) (method : Nat) (args : List JSVal)
    (stack : Option Nat) (w : World) : World :=
  exec env target method args w.sched.onErrorSet stack w

/-- The `do { ... } while (...)` body of `_loop`: shift the front entry,
execute it via `_exec`, and continue while
`!this.isDestroyed && tasks.length > 0 &&
performance.now() - startTime < millisecondsPerFrame`.
Recursion is fuelled; `fuelOut` marks exhaustion of the model's fuel, and
shifting an empty queue (unreachable under `_loop`'s entry assert and the
`tasks.length > 0` guard) maps to the `TypeError` destructuring `undefined`
would raise. -/
def loopGo (env : Env) (budget startTime : JSNum) :
    Nat → World → World × Option SchedErr
  | 0, w => (w, some .fuelOut)
  | fuel + 1, w =>
    match w.sched.tasks with
    | [] => (w, some .typeError)
    | t :: rest =>
      let w := { w with sched := { w.sched with tasks := rest } }
      let w := _exec env t.target t.method t.args t.stack w
      if !w.sched.isDestroyed && decide (0 < w.sched.tasks.length)
          && decide (w.now - startTime < budget) then
        loopGo env budget startTime fuel w
      else
        (w, none)

/-- Model of `_loop(startTime)`: return immediately when destroyed; assert the queue
is non-empty; run the do-while drain; re-check destruction; if tasks remain
call `_next()`, otherwise call `_end()` when a current instance exists. -/
def _loop (env : Env) (fuel : Nat) (startTime : JSNum) (w : World) :
    World × Option SchedErr :=
  if w.sched.isDestroyed then (w, none)
  else
    let budget := millisecondsPerFrame env.fps
    if w.sched.tasks.length == 0 then
      (w, some (.assertFail "Could not run current loop. Service instance has no tasks."))
    else
      match loopGo env budget startTime fuel w with
      | (w, some e) => (w, some e)
      | (w, none) =>
        if w.sched.isDestroyed then (w, none)
        else if 0 < w.sched.tasks.length then _next w
        else
          match w.sched.currentInstance with
          | some _ => _end w
          | none => (w, none)

/-- The host fires the oldest outstanding frame request: the handle is
consumed (its callback is no longer pending) and `_loop` is invoked with
the frame-start timestamp. -/
def hostFire (env : Env) (fuel : Nat) (w : World) : World × Option SchedErr :=
  match w.outstanding with
  | [] => (w, none)
  | h :: rest =>
    let _ := h
    let w := { w with outstanding := rest }
    _loop env fuel w.now w

/-- Number of queued entries matching a (target, resolved-method) identity
pair. -/
def countMatching (tasks : List Task) (target : JSVal) (method : Nat) : Nat :=
  (tasks.filter (fun t => t.target == target && t.method == method)).length

/-- A task body that does nothing and takes no time. -/
def noopBehavior : Behavior := ⟨[], none, 0⟩

/-- A production-mode environment (no stack capture, default FPS, empty
property tables) with the given callable behaviours. -/
def prodEnv (behaviors : Nat → Behavior) : Env :=
  { props := fun _ _ => .vundefined
    fprops := fun _ _ => .vundefined
    environment := "production"
    fps := .absent
    behaviors := behaviors }

/-- A freshly created scheduler (after `init`): empty queue, no current
instance, not destroyed; the `onError` hook defaults to `Ember.onerror`
(configured). -/
def freshWorld : World :=
  { sched := { tasks := [], currentInstance := none, isDestroyed := false,
               onErrorSet := true }
    outstanding := []
    nextHandle := 1
    now := 0
    stackCtr := 0
    errLog := []
    execLog := [] }

/-- An environment in which every callable is a no-op. -/
def envPlain : Env := prodEnv (fun _ => noopBehavior)

/-- Trace for the `cancel` stale-index bug: `schedule(T, M)` twice with the
same target object (id 5) and the same method function (id 7). -/
def wTwoDup : World :=
  (schedule envPlain [.vobj 5, .vfun 7]
    (schedule envPlain [.vobj 5, .vfun 7] freshWorld).1).1

/-- Continuation of the duplicate trace: a `scheduleOnce` for the same pair
with a new argument. -/
def wDupOnce : World :=
  (scheduleOnce envPlain [.vobj 5, .vfun 7, .vnum 9] wTwoDup).1

/-- Environment for the frame-request invariant trace: callable 1 cancels
callable 2's pending entry, then schedules callable 3, and its body takes
1000 ms (over the default frame budget); callables 2 and 3 are no-ops. -/
def envReent : Env := prodEnv (fun id =>
  if id == 1 then ⟨[.callCancel [.vfun 2], .callSchedule [.vfun 3]], none, 1000⟩
  else noopBehavior)

/-- Frame-request invariant trace: schedule callables 1 and 2, then let the
host fire the requested frame. -/
def wReent : World :=
  (hostFire envReent 10
    (schedule envReent [.vfun 2] (schedule envReent [.vfun 1] freshWorld).1).1).1

/-- A scheduler mid-drain on its last entry: the entry has been shifted off
(queue empty) while `_currentInstance` still holds the fired frame's
handle.  Reached e.g. inside the body of the single scheduled task of
`envMidDrain` below. -/
def wMidDrain : World :=
  { freshWorld with
      sched := { freshWorld.sched with currentInstance := some 1 }
      nextHandle := 2 }

/-- Environment reaching the mid-drain empty-queue `cancel`: callable 1
performs a zero-match `cancel` and then schedules callable 2, taking 1000 ms
(over budget); callable 2 is a no-op.  Function 9 is never scheduled, so
cancelling it matches nothing. -/
def envMidDrain : Env := prodEnv (fun id =>
  if id == 1 then ⟨[.callCancel [.vfun 9], .callSchedule [.vfun 2]], none, 1000⟩
  else noopBehavior)

/-- A mid-drain world with two no-op entries queued (functions 3 and 4). -/
def wTwoNoop : World :=
  { freshWorld with
      sched := { freshWorld.sched with
                   tasks := [⟨.vnull, 3, [], none⟩, ⟨.vnull, 4, [], none⟩],
                   currentInstance := some 1 } }

/-- Environment in which callable 1 tears the scheduler down from inside
its own body. -/
def envDestroy : Env := prodEnv (fun id =>
  if id == 1 then ⟨[.destroy], none, 0⟩ else noopBehavior)

/-- A mid-drain world queuing the self-destroying callable 1 followed by
the no-op callable 2. -/
def wDestroy : World :=
  { freshWorld with
      sched := { freshWorld.sched with
                   tasks := [⟨.vnull, 1, [], none⟩, ⟨.vnull, 2, [], none⟩],
                   currentInstance := some 1 } }

/-- Environment in which callable 1 throws error 5 after 1 ms; all other
callables are no-ops. -/
def envThrow : Env := prodEnv (fun id =>
  if id == 1 then ⟨[], some 5, 1⟩ else noopBehavior)

/-- A mid-drain world queuing the throwing callable 1 followed by the
no-op callable 2. -/
def wThrow : World :=
  { freshWorld with
      sched := { freshWorld.sched with
                   tasks := [⟨.vnull, 1, [], none⟩, ⟨.vnull, 2, [], none⟩],
                   currentInstance := some 1 } }

/-! ## Preservation lemmas

The frame-lifecycle and queue operations never touch the execution log:
only `invokeMethod` appends to it.  These lemmas let us read "which entries
were executed" off the log. -/

theorem _begin_execLog (w : World) : (_begin w).1.execLog = w.execLog := by
  unfold _begin requestAnimationFrame
  split <;> rfl

theorem _next_execLog (w : World) : (_next w).1.execLog = w.execLog := by
  unfold _next requestAnimationFrame
  split <;> [rfl; split <;> rfl]

theorem _end_execLog (w : World) : (_end w).1.execLog = w.execLog := by
  unfold _end cancelAnimationFrame
  split <;> rfl

theorem schedule_execLog (env : Env) (argv : List JSVal) (w : World) :
    (schedule env argv w).1.execLog = w.execLog := by
  unfold schedule
  split
  · rfl
  · dsimp only
    split
    · exact _begin_execLog _
    · rfl

theorem scheduleOnce_execLog (env : Env) (argv : List JSVal) (w : World) :
    (scheduleOnce env argv w).1.execLog = w.execLog := by
  unfold scheduleOnce
  split
  · rfl
  · dsimp only
    split
    · exact _begin_execLog _
    · rfl

theorem cancel_execLog (env : Env) (argv : List JSVal) (w : World) :
    (cancel env argv w).1.execLog = w.execLog := by
  unfold cancel
  split
  · rfl
  · dsimp only
    split
    · split
      · next heq => exact (congrArg (fun p => p.1.execLog) heq.symm).trans (_end_execLog _)
      · next heq => exact (congrArg (fun p => p.1.execLog) heq.symm).trans (_end_execLog _)
    · rfl

theorem runCall_execLog (env : Env) (c : SchedCall) (w : World) :
    (runCall env c w).1.execLog = w.execLog := by
  cases c with
  | callSchedule argv =>
    have h := schedule_execLog env argv w
    simpa only [runCall] using h
  | callScheduleOnce argv =>
    have h := scheduleOnce_execLog env argv w
    simpa only [runCall] using h
  | callCancel argv =>
    have h := cancel_execLog env argv w
    simp only [runCall]
    split
    · next heq => rw [← h, heq]
    · next heq => rw [← h, heq]
  | destroy => rfl

theorem runCalls_execLog (env : Env) (cs : List SchedCall) (w : World) :
    (runCalls env cs w).1.execLog = w.execLog := by
  induction cs generalizing w with
  | nil => rfl
  | cons c rest ih =>
    unfold runCalls
    have h := runCall_execLog env c w
    split
    · next heq => rw [← h, heq]
    · next heq =>
      rw [ih]
      rw [← h, heq]

theorem invokeMethod_execLog (env : Env) (target : JSVal) (method : Nat)
    (args : List JSVal) (w : World) :
    (invokeMethod env target method args w).1.execLog
      = w.execLog ++ [(target, method, args)] := by
  unfold invokeMethod
  dsimp only
  have h : (runCalls env (env.behaviors method).calls
      { w with execLog := w.execLog ++ [(target, method, args)],
               now := w.now + (env.behaviors method).duration }).1.execLog
        = w.execLog ++ [(target, method, args)] :=
    runCalls_execLog env (env.behaviors method).calls _
  split
  · next heq => rw [heq] at h; exact h
  · next heq =>
    rw [heq] at h
    split
    · exact h
    · exact h

theorem exec_execLog (env : Env) (target : JSVal) (method : Nat)
    (args : List JSVal) (onError : Bool) (stack : Option Nat) (w : World) :
    (exec env target method args onError stack w).execLog
      = w.execLog ++ [(target, method, args)] := by
  unfold exec
  have h := invokeMethod_execLog env target method args w
  split
  · next heq => rw [← h, heq]
  · next heq =>
    rw [heq] at h
    split
    · simpa using h
    · simpa using h

theorem _exec_execLog (env : Env) (target : JSVal) (method : Nat)
    (args : List JSVal) (stack : Option Nat) (w : World) :
    (_exec env target method args stack w).execLog
      = w.execLog ++ [(target, method, args)] :=
  exec_execLog env target method args w.sched.onErrorSet stack w

theorem _end_tasks (w : World) : (_end w).1.sched.tasks = w.sched.tasks := by
  unfold _end cancelAnimationFrame
  split <;> rfl

theorem _begin_tasks (w : World) : (_begin w).1.sched.tasks = w.sched.tasks := by
  unfold _begin requestAnimationFrame
  split <;> rfl

theorem _end_currentInstance_of_isSome (w : World)
    (h : w.sched.currentInstance.isSome = true) :
    (_end w).1.sched.currentInstance = none := by
  unfold _end cancelAnimationFrame
  cases hw : w.sched.currentInstance with
  | none => rw [hw] at h; cases h
  | some x => rfl

/-! ## Drain-loop execution lemmas -/

theorem loopGo_execLog_extend (env : Env) (budget startTime : JSNum) :
    ∀ (fuel : Nat) (w : World), ∃ l,
      (loopGo env budget startTime fuel w).1.execLog = w.execLog ++ l := by
  intro fuel
  induction fuel with
  | zero => exact fun w => ⟨[], by simp [loopGo]⟩
  | succ n ih =>
    intro w
    unfold loopGo
    cases htasks : w.sched.tasks with
    | nil => exact ⟨[], by simp⟩
    | cons t rest =>
      dsimp only
      split
      · obtain ⟨l, hl⟩ := ih (_exec env t.target t.method t.args t.stack
          { w with sched := { w.sched with tasks := rest } })
        refine ⟨(t.target, t.method, t.args) :: l, ?_⟩
        rw [hl, _exec_execLog]
        simp
      · exact ⟨[(t.target, t.method, t.args)], by rw [_exec_execLog]⟩

theorem loopGo_head_exec (env : Env) (budget startTime : JSNum) (fuel : Nat)
    (w : World) (t : Task) (rest : List Task) (h : w.sched.tasks = t :: rest) :
    ∃ l, (loopGo env budget startTime (fuel + 1) w).1.execLog
      = w.execLog ++ (t.target, t.method, t.args) :: l := by
  unfold loopGo
  rw [h]
  dsimp only
  split
  · obtain ⟨l, hl⟩ := loopGo_execLog_extend env budget startTime fuel
      (_exec env t.target t.method t.args t.stack
        { w with sched := { w.sched with tasks := rest } })
    refine ⟨l, ?_⟩
    rw [hl, _exec_execLog]
    simp
  · exact ⟨[], by rw [_exec_execLog]⟩

/-! ## Claim theorems -/

/-- C10: `millisecondsPerFrame` equals `1000 * (1 / FPS)` (as a rational
number) for every truthy (nonzero) configured FPS, and for every falsy
configured value (absent, `null`, or a zero number) it falls back to the
default 60 frames per second, yielding `1000 / 60`; in particular a
configured rate of 0 produces the default finite budget, not a division by
zero or an infinite budget. -/
theorem millisecondsPerFrame_spec :
    (∀ q : JSNum, q.num ≠ 0 →
      (millisecondsPerFrame (.num q)).toRat = 1000 * (1 / q.toRat))
    ∧ (millisecondsPerFrame .absent).toRat = 1000 / 60
    ∧ (millisecondsPerFrame .nullv).toRat = 1000 / 60
    ∧ (∀ q : JSNum, q.num = 0 →
      (millisecondsPerFrame (.num q)).toRat = 1000 / 60) := by
  have habs : millisecondsPerFrame .absent = ⟨1000, 60⟩ := rfl
  have hnull : millisecondsPerFrame .nullv = ⟨1000, 60⟩ := rfl
  have htr : (JSNum.mk 1000 60).toRat = 1000 / 60 := by
    simp [JSNum.toRat]
  refine ⟨fun q hq => ?_, by rw [habs, htr], by rw [hnull, htr], fun q hq => ?_⟩
  · have h1 : millisecondsPerFrame (.num q) = ⟨1 * q.den * 1000, 1 * q.num * 1⟩ := by
      simp only [millisecondsPerFrame]
      rw [if_neg (by simpa using hq)]
      rfl
    rw [h1]
    simp only [JSNum.toRat]
    rw [one_div_div]
    push_cast
    rw [div_eq_mul_inv, div_eq_mul_inv]
    ring
  · have h1 : millisecondsPerFrame (.num q) = ⟨1000, 60⟩ := by
      simp only [millisecondsPerFrame]
      rw [if_pos (by simpa using hq)]
      rfl
    rw [h1, htr]

/-- Witness for C10 at the configured rate 30. -/
theorem millisecondsPerFrame_spec_witness :
    (JSNum.num 30) ≠ 0
    ∧ (millisecondsPerFrame (.num 30)).toRat = 1000 * (1 / (JSNum.toRat 30)) :=
  ⟨by decide, millisecondsPerFrame_spec.1 30 (by decide)⟩

/-- C1 (bug): after `schedule(T, M)` twice for the same pair,
`cancel(T, M)` removes only the first matching entry — the second splice
uses the stale original index 1, which after the first splice points past
the end of the array — so one matching entry remains pending and the
returned array is `[[first entry], []]` rather than both entries. -/
theorem cancel_stale_splice_bug :
    (cancel envPlain [.vobj 5, .vfun 7] wTwoDup).1.sched.tasks
      = [{ target := .vobj 5, method := 7, args := [], stack := none }]
    ∧ (cancel envPlain [.vobj 5, .vfun 7] wTwoDup).2
      = .ok [[{ target := .vobj 5, method := 7, args := [], stack := none }], []] :=
  ⟨rfl, rfl⟩

/-- C2 counterexample: after two plain `schedule(T, M)` calls, a
`scheduleOnce(T, M, 9)` leaves TWO pending entries for the pair `(T, M)`
(it only rewrites the first duplicate), refuting "after any call
scheduleOnce(T, M, args), the queue holds at most one pending entry for
the pair". -/
theorem scheduleOnce_after_duplicates_cex :
    countMatching wDupOnce.sched.tasks (.vobj 5) 7 = 2 := rfl

/-- C3 (bug): a task that cancels the rest of the queue and then schedules
new work, in a frame that ends over budget, makes the scheduler request a
second host frame while one is already outstanding: after the trace
`wReent` two frame requests (handles 2 and 3) are simultaneously pending.
Continuing the trace by cancelling the one queued task and letting the
leaked frame fire crashes the drain loop on its own "no tasks" assert. -/
theorem reentrant_cancel_schedule_double_request :
    wReent.outstanding = [2, 3]
    ∧ wReent.sched.currentInstance = some 3
    ∧ (hostFire envReent 10 ((cancel envReent [.vfun 3] wReent).1)).2
      = some (.assertFail "Could not run current loop. Service instance has no tasks.") := by
  refine ⟨?_, ?_, ?_⟩ <;> decide

/-- C4 counterexample: a `cancel` with zero matching entries invoked
mid-drain while the queue is empty (the executing entry was the last) is
NOT pure: it clears the active-frame-request handle (`_end` runs because
`currentInstance` is set and `tasks.length === 0`).  The same situation is
reachable: in `envMidDrain`, the only task's body performs a zero-match
`cancel` and then a `schedule`; because the zero-match `cancel` cleared the
handle, the re-entrant `schedule` requests a frame and the over-budget loop
exit requests another, ending with two outstanding requests. -/
theorem cancel_middrain_empty_queue_cex :
    wMidDrain.sched.currentInstance = some 1
    ∧ (cancel envPlain [.vfun 9] wMidDrain).1.sched.currentInstance = none
    ∧ (hostFire envMidDrain 10
        (schedule envMidDrain [.vfun 1] freshWorld).1).1.outstanding = [2, 3] := by
  refine ⟨?_, ?_, ?_⟩ <;> decide

/-- C6: when `_sliceArguments` cannot resolve a callable function (the
target is `null`/`undefined` while a method name was given — a `TypeError` —
or the resolved value is not a function — the admission assert), both
`schedule` and `scheduleOnce` fail synchronously with that error and leave
the scheduler state unchanged: no entry is added to the queue, the
current-instance handle is untouched and no host frame is requested.
(Only the model's diagnostic stack-freshness counter may advance, mirroring
the discarded `new Error()` allocation.) -/
theorem admission_error_leaves_state_unchanged (env : Env) (argv : List JSVal)
    (w : World) (e : SchedErr)
    (h : (sliceArguments env argv w.stackCtr).1 = .error e) :
    (schedule env argv w).2 = some e
    ∧ (schedule env argv w).1.sched = w.sched
    ∧ (schedule env argv w).1.outstanding = w.outstanding
    ∧ (schedule env argv w).1.nextHandle = w.nextHandle
    ∧ (scheduleOnce env argv w).2 = some e
    ∧ (scheduleOnce env argv w).1.sched = w.sched
    ∧ (scheduleOnce env argv w).1.outstanding = w.outstanding
    ∧ (scheduleOnce env argv w).1.nextHandle = w.nextHandle := by
  rcases hp : sliceArguments env argv w.stackCtr with ⟨r, ctr⟩
  rw [hp] at h
  simp only at h
  subst h
  refine ⟨?_, ?_, ?_, ?_, ?_, ?_, ?_, ?_⟩ <;> simp [schedule, scheduleOnce, hp]

/-- Witness for C6: `schedule(null, 'm')` — a method name on a null target. -/
theorem admission_error_leaves_state_unchanged_witness :
    (sliceArguments envPlain [.vnull, .vstr "m"] freshWorld.stackCtr).1
        = .error .typeError
    ∧ (schedule envPlain [.vnull, .vstr "m"] freshWorld).2 = some .typeError
    ∧ (schedule envPlain [.vnull, .vstr "m"] freshWorld).1.sched = freshWorld.sched
    ∧ (schedule envPlain [.vnull, .vstr "m"] freshWorld).1.outstanding
        = freshWorld.outstanding
    ∧ (schedule envPlain [.vnull, .vstr "m"] freshWorld).1.nextHandle
        = freshWorld.nextHandle
    ∧ (scheduleOnce envPlain [.vnull, .vstr "m"] freshWorld).2 = some .typeError
    ∧ (scheduleOnce envPlain [.vnull, .vstr "m"] freshWorld).1.sched = freshWorld.sched
    ∧ (scheduleOnce envPlain [.vnull, .vstr "m"] freshWorld).1.outstanding
        = freshWorld.outstanding
    ∧ (scheduleOnce envPlain [.vnull, .vstr "m"] freshWorld).1.nextHandle
        = freshWorld.nextHandle := by
  refine ⟨rfl, ?_⟩
  exact admission_error_leaves_state_unchanged envPlain [.vnull, .vstr "m"]
    freshWorld .typeError rfl

/-- C9 counterexample: `schedule(f, 1)` with `f` a function and one extra
argument does NOT construct an entry with callable `f`, target `null` and
args `[1]`: the arity is 2, so `f` is taken as the target and `1` as the
method, and admission fails with the "no valid method" assert, enqueueing
nothing. -/
theorem schedule_function_with_args_cex :
    (schedule envPlain [.vfun 7, .vnum 1] freshWorld).2
      = some (.assertFail "Could not find a valid method to call")
    ∧ (schedule envPlain [.vfun 7, .vnum 1] freshWorld).1.sched.tasks = [] :=
  ⟨rfl, rfl⟩

/-- C9 (amended): only the single-argument form treats a function first
argument as the callable: `schedule(f)` (and `_sliceArguments(f)`) builds
the entry with callable `f`, the no-target sentinel `null`, and an empty
argument sequence; when extra arguments are passed, `f` is instead treated
as the target and the second argument as the method. -/
theorem schedule_single_function_form (env : Env) (f : Nat) (w : World) :
    (sliceArguments env [.vfun f] w.stackCtr).1
      = .ok { target := .vnull, method := f, args := [],
              stack := if env.environment == "development"
                       then some w.stackCtr else none }
    ∧ (schedule env [.vfun f] w).1.sched.tasks
      = w.sched.tasks ++
        [{ target := .vnull, method := f, args := [],
           stack := if env.environment == "development"
                    then some w.stackCtr else none }] := by
  have h1 : sliceArguments env [.vfun f] w.stackCtr
      = (.ok { target := .vnull, method := f, args := [],
               stack := if env.environment == "development"
                        then some w.stackCtr else none },
         if env.environment == "development"
         then w.stackCtr + 1 else w.stackCtr) := by
    unfold sliceArguments
    cases henv : env.environment == "development" <;> simp [henv]
  refine ⟨by rw [h1], ?_⟩
  simp only [schedule, h1]
  split
  · rw [_begin_tasks]
  · rfl

/-- Characterisation of `cancel`'s effect on frame-request state: either it
leaves the current-instance handle, the outstanding host requests and the
handle counter untouched, or a drain was active (`_currentInstance` set),
the queue ended empty, and `_end()` ran — releasing the handle. -/
theorem cancel_frame_effect (env : Env) (argv : List JSVal) (w : World) :
    ((cancel env argv w).1.sched.currentInstance = w.sched.currentInstance
      ∧ (cancel env argv w).1.outstanding = w.outstanding
      ∧ (cancel env argv w).1.nextHandle = w.nextHandle)
    ∨ (w.sched.currentInstance.isSome = true
       ∧ (cancel env argv w).1.sched.tasks = []
       ∧ (cancel env argv w).1.sched.currentInstance = none) := by
  unfold cancel
  split
  · exact Or.inl ⟨rfl, rfl, rfl⟩
  · dsimp only
    split
    · next hcond =>
      rw [Bool.and_eq_true] at hcond
      refine Or.inr ⟨hcond.1, ?_, ?_⟩
      · split
        · next w2 e2 heq =>
          have h2 := congrArg (fun p => p.1.sched.tasks) heq
          simp only at h2
          rw [← h2, _end_tasks]
          exact List.length_eq_zero.mp (by simpa using hcond.2)
        · next w2 heq =>
          have h2 := congrArg (fun p => p.1.sched.tasks) heq
          simp only at h2
          rw [← h2, _end_tasks]
          exact List.length_eq_zero.mp (by simpa using hcond.2)
      · split
        · next w2 e2 heq =>
          have h2 := congrArg (fun p => p.1.sched.currentInstance) heq
          simp only at h2
          rw [← h2]
          exact _end_currentInstance_of_isSome _ hcond.1
        · next w2 heq =>
          have h2 := congrArg (fun p => p.1.sched.currentInstance) heq
          simp only at h2
          rw [← h2]
          exact _end_currentInstance_of_isSome _ hcond.1
    · exact Or.inl ⟨rfl, rfl, rfl⟩

/-- C4 (amended): a `cancel` made while no drain is active, or whose
post-removal queue is non-empty (in particular a zero-match `cancel`
mid-drain while other entries are still queued), mutates only the queue:
the active-frame-request handle is unchanged and no host frame request is
issued or released.  (The unamended claim fails when a drain is active and
the queue ends empty — there `cancel` runs `_end()` and clears the handle,
see the counterexample.) -/
theorem cancel_pure_queue_mutation (env : Env) (argv : List JSVal) (w : World)
    (h : w.sched.currentInstance = none ∨ (cancel env argv w).1.sched.tasks ≠ []) :
    (cancel env argv w).1.sched.currentInstance = w.sched.currentInstance
    ∧ (cancel env argv w).1.outstanding = w.outstanding
    ∧ (cancel env argv w).1.nextHandle = w.nextHandle := by
  rcases cancel_frame_effect env argv w with hok | ⟨hsome, hnil, _⟩
  · exact hok
  · rcases h with hnone | hne
    · rw [hnone] at hsome
      cases hsome
    · exact absurd hnil hne

/-- Witness for C4 (amended): a zero-match `cancel` on an idle scheduler. -/
theorem cancel_pure_queue_mutation_witness :
    (freshWorld.sched.currentInstance = none
      ∨ (cancel envPlain [.vfun 9] freshWorld).1.sched.tasks ≠ [])
    ∧ ((cancel envPlain [.vfun 9] freshWorld).1.sched.currentInstance
        = freshWorld.sched.currentInstance
      ∧ (cancel envPlain [.vfun 9] freshWorld).1.outstanding
        = freshWorld.outstanding
      ∧ (cancel envPlain [.vfun 9] freshWorld).1.nextHandle
        = freshWorld.nextHandle) :=
  ⟨Or.inl rfl,
   cancel_pure_queue_mutation envPlain [.vfun 9] freshWorld (Or.inl rfl)⟩

/-- Inserting via `_pushUnique` into a queue with no matching entry appends
at the tail. -/
theorem pushUnique_no_match (s : Task) (q : List Task)
    (h : countMatching q s.target s.method = 0) :
    _pushUnique s q = q ++ [s] := by
  induction q with
  | nil => rfl
  | cons x xs ih =>
    unfold _pushUnique
    unfold countMatching at h
    rw [List.filter_cons] at h
    split at h
    · simp at h
    · next hx =>
      rw [if_neg (by simpa using hx)]
      rw [ih h, List.cons_append]

/-- Inserting via `_pushUnique` when the first matching entry is `m` at
position `|a|` overwrites `m`'s args and stack in place, preserving its
position and every other entry. -/
theorem pushUnique_replace (s : Task) (a : List Task) (m : Task) (b : List Task)
    (hm : m.target = s.target) (hm2 : m.method = s.method)
    (ha : ∀ x ∈ a, ¬(x.target = s.target ∧ x.method = s.method)) :
    _pushUnique s (a ++ m :: b)
      = a ++ { m with args := s.args, stack := s.stack } :: b := by
  induction a with
  | nil =>
    rw [List.nil_append]
    unfold _pushUnique
    rw [if_pos (by simp [hm, hm2])]
    rw [List.nil_append]
  | cons x a ih =>
    have hx := ha x (by simp)
    rw [List.cons_append]
    unfold _pushUnique
    rw [if_neg (by simp only [Bool.and_eq_true, beq_iff_eq, not_and]; intro h1 h2; exact hx ⟨h1, h2⟩)]
    rw [ih (fun y hy => ha y (by simp [hy]))]
    rw [List.cons_append]

/-- Matching count after `_pushUnique`: from at most one to exactly one. -/
theorem pushUnique_countMatching (s : Task) (q : List Task)
    (h : countMatching q s.target s.method ≤ 1) :
    countMatching (_pushUnique s q) s.target s.method = 1 := by
  induction q with
  | nil => simp [_pushUnique, countMatching, List.filter_cons]
  | cons x xs ih =>
    unfold countMatching at h ih ⊢
    simp only [List.filter_cons] at h
    unfold _pushUnique
    by_cases hx : (x.target == s.target && x.method == s.method) = true
    · rw [if_pos hx]
      rw [if_pos hx] at h
      simp only [List.filter_cons]
      rw [if_pos (show (({ x with args := s.args, stack := s.stack } : Task).target == s.target
          && ({ x with args := s.args, stack := s.stack } : Task).method == s.method) = true from hx)]
      have hxs : (List.filter (fun t => t.target == s.target && t.method == s.method) xs).length = 0 := by
        simp only [List.length_cons] at h
        omega
      simp [hxs]
    · rw [if_neg hx]
      rw [if_neg hx] at h
      simp only [List.filter_cons]
      rw [if_neg hx]
      exact ih h

/-- C2 (amended): `scheduleOnce` deduplication at the queue level, stated
for queues holding at most one entry for the pair — the situation whenever
duplicates were not previously created by plain `schedule`.  (1) After
`_pushUnique` exactly one entry matches the pair.  (2) When the first match
`m` sits at position `|a|`, `_pushUnique` overwrites `m`'s args and stack
in place, keeping its position and all other entries.  (3) Two successive
`scheduleOnce` insertions for the same pair starting from a queue without
the pair leave exactly one entry, at the position of the first insertion,
carrying the second call's args.  (The unamended claim — at most one entry
after any `scheduleOnce` — fails when plain `schedule` already queued
duplicates, see the counterexample.) -/
theorem scheduleOnce_dedup_amended (q : List Task) (t t' : Task) :
    (countMatching q t.target t.method ≤ 1 →
      countMatching (_pushUnique t q) t.target t.method = 1)
    ∧ (∀ a m b, q = a ++ m :: b → m.target = t.target → m.method = t.method →
        (∀ x ∈ a, ¬(x.target = t.target ∧ x.method = t.method)) →
        _pushUnique t q = a ++ { m with args := t.args, stack := t.stack } :: b)
    ∧ (t'.target = t.target → t'.method = t.method →
        countMatching q t.target t.method = 0 →
        _pushUnique t' (_pushUnique t q)
          = q ++ [{ t with args := t'.args, stack := t'.stack }]) := by
  refine ⟨pushUnique_countMatching t q, ?_, ?_⟩
  · intro a m b hq hm hm2 ha
    rw [hq]
    exact pushUnique_replace t a m b hm hm2 ha
  · intro ht ht2 h0
    rw [pushUnique_no_match t q h0]
    have hq0 : ∀ x ∈ q, ¬(x.target = t'.target ∧ x.method = t'.method) := by
      intro x hx hcontra
      have : (List.filter (fun y => y.target == t.target && y.method == t.method) q).length = 0 := h0
      rw [List.length_eq_zero] at this
      have hmem := List.filter_eq_nil_iff.mp this x hx
      simp only [Bool.and_eq_true, beq_iff_eq] at hmem
      exact hmem ⟨ht ▸ hcontra.1, ht2 ▸ hcontra.2⟩
    have := pushUnique_replace t' q t [] ht.symm ht2.symm hq0
    rw [this]

/-- Witness for C2 (amended), at a one-entry queue and at the empty queue. -/
theorem scheduleOnce_dedup_amended_witness :
    countMatching
      (_pushUnique ⟨.vobj 5, 7, [.vnum 2], none⟩ [⟨.vobj 5, 7, [.vnum 1], none⟩])
      (JSVal.vobj 5) 7 = 1
    ∧ _pushUnique ⟨.vobj 5, 7, [.vnum 3], none⟩
        (_pushUnique ⟨.vobj 5, 7, [.vnum 2], none⟩ [])
      = [⟨.vobj 5, 7, [.vnum 3], none⟩] :=
  ⟨(scheduleOnce_dedup_amended [⟨.vobj 5, 7, [.vnum 1], none⟩]
      ⟨.vobj 5, 7, [.vnum 2], none⟩ ⟨.vobj 5, 7, [.vnum 3], none⟩).1 (by decide),
   (scheduleOnce_dedup_amended [] ⟨.vobj 5, 7, [.vnum 2], none⟩
      ⟨.vobj 5, 7, [.vnum 3], none⟩).2.2 rfl rfl rfl⟩

/-- Elapsed-time cancellation for the model numbers: starting a frame at
`a` and consuming `d` leaves elapsed time `(a + d) - a`, which compares to
any budget exactly as `d` does (for a positive clock denominator). -/
theorem JSNum.sub_add_cancel_lt (a d c : JSNum) (ha : 0 < a.den) :
    ((a + d) - a < c) ↔ (d < c) := by
  show (JSNum.blt (JSNum.sub (JSNum.add a d) a) c = true)
    ↔ (JSNum.blt d c = true)
  simp only [JSNum.blt, JSNum.add, JSNum.sub, decide_eq_true_eq]
  rw [show ((a.num * d.den + d.num * a.den) * a.den - a.num * (a.den * d.den)) * c.den
      = d.num * c.den * (a.den * a.den) from by ring]
  rw [show c.num * (a.den * d.den * a.den) = c.num * d.den * (a.den * a.den)
      from by ring]
  exact mul_lt_mul_right (mul_pos ha ha)

/-- One unfolding step of the drain do-while body on a non-empty queue. -/
theorem loopGo_succ (env : Env) (budget start : JSNum) (fuel : Nat)
    (w : World) (t : Task) (rest : List Task) (h : w.sched.tasks = t :: rest) :
    loopGo env budget start (fuel + 1) w
      = (if (!(_exec env t.target t.method t.args t.stack
              { w with sched := { w.sched with tasks := rest } }).sched.isDestroyed
            && decide (0 < (_exec env t.target t.method t.args t.stack
              { w with sched := { w.sched with tasks := rest } }).sched.tasks.length)
            && decide ((_exec env t.target t.method t.args t.stack
              { w with sched := { w.sched with tasks := rest } }).now - start < budget))
            = true
         then loopGo env budget start fuel
           (_exec env t.target t.method t.args t.stack
             { w with sched := { w.sched with tasks := rest } })
         else (_exec env t.target t.method t.args t.stack
             { w with sched := { w.sched with tasks := rest } }, none)) := by
  conv_lhs => unfold loopGo
  rw [h]

/-- C7: on every drain-loop iteration with a non-empty queue the front
entry is executed unconditionally — the `do..while` body runs even when
the elapsed time already meets or exceeds the budget — and a further entry
is started (at least two entries appear in the execution log) iff, after
the front entry completes, the scheduler is not destroyed, the queue is
still non-empty, and the elapsed time since frame start is strictly below
the per-frame budget.  A task's execution is a single atomic step of the
model: a started task is never preempted. -/
theorem drain_budget_soft (env : Env) (budget start : JSNum) (fuel : Nat)
    (w : World) (t : Task) (rest : List Task) (h : w.sched.tasks = t :: rest) :
    (∃ l, (loopGo env budget start (fuel + 2) w).1.execLog
        = w.execLog ++ (t.target, t.method, t.args) :: l)
    ∧ (w.execLog.length + 2 ≤ (loopGo env budget start (fuel + 2) w).1.execLog.length
        ↔ ((_exec env t.target t.method t.args t.stack
              { w with sched := { w.sched with tasks := rest } }).sched.isDestroyed
             = false
           ∧ (_exec env t.target t.method t.args t.stack
              { w with sched := { w.sched with tasks := rest } }).sched.tasks ≠ []
           ∧ (_exec env t.target t.method t.args t.stack
              { w with sched := { w.sched with tasks := rest } }).now - start
             < budget)) := by
  constructor
  · exact loopGo_head_exec env budget start (fuel + 1) w t rest h
  · have hw1log : (_exec env t.target t.method t.args t.stack
        { w with sched := { w.sched with tasks := rest } }).execLog
        = w.execLog ++ [(t.target, t.method, t.args)] :=
      _exec_execLog env t.target t.method t.args t.stack _
    rw [loopGo_succ env budget start (fuel + 1) w t rest h]
    by_cases hcond : (!(_exec env t.target t.method t.args t.stack
          { w with sched := { w.sched with tasks := rest } }).sched.isDestroyed
        && decide (0 < (_exec env t.target t.method t.args t.stack
          { w with sched := { w.sched with tasks := rest } }).sched.tasks.length)
        && decide ((_exec env t.target t.method t.args t.stack
          { w with sched := { w.sched with tasks := rest } }).now - start < budget))
        = true
    · rw [if_pos hcond]
      simp only [Bool.and_eq_true, Bool.not_eq_true', decide_eq_true_eq] at hcond
      obtain ⟨⟨h1, h2⟩, h3⟩ := hcond
      obtain ⟨t', rest', htasks'⟩ :=
        List.exists_cons_of_ne_nil (List.length_pos.mp h2)
      refine iff_of_true ?_ ⟨h1, List.length_pos.mp h2, h3⟩
      obtain ⟨l, hl⟩ := loopGo_head_exec env budget start fuel _ t' rest' htasks'
      rw [hl, hw1log]
      simp
    · rw [if_neg hcond]
      refine iff_of_false ?_ ?_
      · rw [hw1log]
        simp
      · intro ⟨h1, h2, h3⟩
        exact hcond (by
          simp only [Bool.and_eq_true, Bool.not_eq_true', decide_eq_true_eq]
          exact ⟨⟨h1, List.length_pos.mpr h2⟩, h3⟩)

/-- Witness for C7 on two queued no-op tasks with a large budget. -/
theorem drain_budget_soft_witness :
    (∃ l, (loopGo envPlain 100 0 2 wTwoNoop).1.execLog
        = wTwoNoop.execLog ++ (JSVal.vnull, 3, []) :: l)
    ∧ (wTwoNoop.execLog.length + 2
          ≤ (loopGo envPlain 100 0 2 wTwoNoop).1.execLog.length
        ↔ ((_exec envPlain .vnull 3 [] none
              { wTwoNoop with sched := { wTwoNoop.sched with
                  tasks := [⟨.vnull, 4, [], none⟩] } }).sched.isDestroyed = false
           ∧ (_exec envPlain .vnull 3 [] none
              { wTwoNoop with sched := { wTwoNoop.sched with
                  tasks := [⟨.vnull, 4, [], none⟩] } }).sched.tasks ≠ []
           ∧ (_exec envPlain .vnull 3 [] none
              { wTwoNoop with sched := { wTwoNoop.sched with
                  tasks := [⟨.vnull, 4, [], none⟩] } }).now - 0 < 100)) :=
  drain_budget_soft envPlain 100 0 0 wTwoNoop ⟨.vnull, 3, [], none⟩
    [⟨.vnull, 4, [], none⟩] rfl

/-- C8: once the scheduler is torn down no queued entry executes.
(i) A drain-loop invocation that finds the scheduler destroyed returns
immediately with the world untouched.  (ii) When destruction happens during
the front entry's execution, the do-while stops at the iteration boundary:
`_loop` returns the post-execution state as is (no `_next`, no `_end`), the
execution log grows by exactly the front entry, and the remaining entries
are dropped without being executed. -/
theorem destroyed_drain_drops_tasks (env : Env) (fuel : Nat) (start : JSNum)
    (w : World) :
    (w.sched.isDestroyed = true → _loop env (fuel + 1) start w = (w, none))
    ∧ (∀ t rest, w.sched.isDestroyed = false → w.sched.tasks = t :: rest →
        (_exec env t.target t.method t.args t.stack
            { w with sched := { w.sched with tasks := rest } }).sched.isDestroyed
          = true →
        _loop env (fuel + 1) start w
          = (_exec env t.target t.method t.args t.stack
              { w with sched := { w.sched with tasks := rest } }, none)
        ∧ (_exec env t.target t.method t.args t.stack
            { w with sched := { w.sched with tasks := rest } }).execLog
          = w.execLog ++ [(t.target, t.method, t.args)]) := by
  constructor
  · intro h
    unfold _loop
    rw [if_pos h]
  · intro t rest hnd htasks hdest
    refine ⟨?_, _exec_execLog env t.target t.method t.args t.stack _⟩
    unfold _loop
    rw [if_neg (by simp [hnd])]
    dsimp only
    rw [if_neg (by simp [htasks])]
    rw [loopGo_succ env (millisecondsPerFrame env.fps) start fuel w t rest htasks]
    rw [if_neg (by simp [hdest])]
    dsimp only
    rw [if_pos hdest]

/-- Witness for C8: callable 1 destroys the scheduler; queued callable 2 is
dropped without executing (the log records only callable 1). -/
theorem destroyed_drain_drops_tasks_witness :
    _loop envDestroy 1 0 wDestroy
      = (_exec envDestroy .vnull 1 [] none
          { wDestroy with sched := { wDestroy.sched with
              tasks := [⟨.vnull, 2, [], none⟩] } }, none)
    ∧ (_exec envDestroy .vnull 1 [] none
        { wDestroy with sched := { wDestroy.sched with
            tasks := [⟨.vnull, 2, [], none⟩] } }).execLog
      = wDestroy.execLog ++ [(.vnull, 1, [])] :=
  (destroyed_drain_drops_tasks envDestroy 0 0 wDestroy).2
    ⟨.vnull, 1, [], none⟩ [⟨.vnull, 2, [], none⟩] rfl rfl (by decide)

/-- C5: error isolation.  For a drain over `[t1, t2]` where `t1`'s callable
throws error `e` (performing no re-entrant calls) and `t2`'s callable is
benign, with `t1` finishing within the frame budget: the exception is
caught inside the per-entry wrapper (`_loop` returns no error — nothing
propagates), the configured `onError` hook is called exactly once with the
error and `t1`'s diagnostic stack (and not at all when no hook is
configured), and the drain continues: `t2` still executes in the same
frame and the queue fully drains. -/
theorem error_isolation (env : Env) (w : World) (t1 t2 : Task) (e : Nat)
    (d d2 : JSNum)
    (htasks : w.sched.tasks = [t1, t2])
    (hnd : w.sched.isDestroyed = false)
    (hb1 : env.behaviors t1.method = ⟨[], some e, d⟩)
    (hb2 : env.behaviors t2.method = ⟨[], none, d2⟩)
    (hden : 0 < w.now.den)
    (hd : d < millisecondsPerFrame env.fps) :
    (_loop env 2 w.now w).2 = none
    ∧ (_loop env 2 w.now w).1.execLog
        = w.execLog ++ [(t1.target, t1.method, t1.args),
                        (t2.target, t2.method, t2.args)]
    ∧ (_loop env 2 w.now w).1.errLog
        = (if w.sched.onErrorSet then w.errLog ++ [(.user e, t1.stack)]
           else w.errLog)
    ∧ (_loop env 2 w.now w).1.sched.tasks = [] := by
  have hcond : (w.now + d) - w.now < millisecondsPerFrame env.fps :=
    (JSNum.sub_add_cancel_lt w.now d _ hden).mpr hd
  have h2 : (2 : Nat) = 0 + 1 + 1 := rfl
  rw [h2]
  cases hoe : w.sched.onErrorSet <;> cases hinst : w.sched.currentInstance <;>
    refine ⟨?_, ?_, ?_, ?_⟩ <;>
      simp [_loop, loopGo, _exec, exec, invokeMethod, runCalls, _end,
        cancelAnimationFrame, htasks, hnd, hb1, hb2, hoe, hinst, hcond]

/-- Witness for C5: callable 1 throws error 5, callable 2 still runs in the
same frame, the hook records the error once, the queue drains. -/
theorem error_isolation_witness :
    (_loop envThrow 2 wThrow.now wThrow).2 = none
    ∧ (_loop envThrow 2 wThrow.now wThrow).1.execLog
        = wThrow.execLog ++ [(.vnull, 1, []), (.vnull, 2, [])]
    ∧ (_loop envThrow 2 wThrow.now wThrow).1.errLog
        = wThrow.errLog ++ [(.user 5, none)]
    ∧ (_loop envThrow 2 wThrow.now wThrow).1.sched.tasks = [] :=
  error_isolation envThrow wThrow ⟨.vnull, 1, [], none⟩ ⟨.vnull, 2, [], none⟩
    5 1 0 rfl rfl rfl rfl (by decide) (by decide)

end TaskScheduler